import Mathlib

/-!
# Verification of the DCF valuation engine

Shallow embedding of the discounted-cash-flow valuation engine found in
`DCF_Valuation_Folder/js/03_normalization.js` (functions `lastValue`,
`solveIRR`, `calculateDCFPure`, `calculateDCF`),
`DCF_Valuation_Folder/js/10a_sensitivity.js` (`sensitivityPrice`,
the grid of `buildSensitivityTable`),
`DCF_Valuation_Folder/js/07_assumptions_panel.js` (`SCENARIO_SLIDERS`,
`computeTornado`) and the attribution change detector `hasDriverChanged`.

JS numbers are modelled as exact rationals (`ℚ`).  The mid-year discount
factor `Math.pow(1 + wacc, i + 0.5)` equals `(1+wacc)^i * (1+wacc)^0.5` in
real arithmetic, so the engine is parametrised by a square-root oracle
`sqf : ℚ → ℚ`; `sqf w` stands for `Math.pow(1 + w, 0.5)` and theorems whose
conclusion depends on its value carry the hypothesis
`0 < sqf w ∧ (sqf w)^2 = 1 + w`.  A JS `null`/`undefined` (and the `NaN`
that arises from arithmetic on `undefined`, which only happens here when the
forecast is empty) is modelled as `Option.none`.
-/

namespace DCF

/-- Math.abs on rationals. -/
def mathAbs (x : ℚ) : ℚ := if x < 0 then -x else x

/-- `state.historical.metrics`: the only metric series the engine reads is
`revenue` (a JS array that may contain `null` entries). -/
structure Metrics where
  revenue : List (Option ℚ)
  deriving DecidableEq

/-- `historicalData` as the engine sees it.  The JS guards
`!historicalData || !historicalData.metrics` collapse to the `none` case. -/
abbrev Historical := Option Metrics

/-- `state.inputs` restricted to the fields the valuation engine reads.
`daPct`, `preferredEquity`, `sharesOutstanding` and `currentPrice` may be
absent (`null`/`undefined` in JS), the rest are required numeric fields
(the caller contract: `buildDefaultInputs` always sets them).
`forecastYears` is an integer (UI field type `int`, min 1, default 5). -/
structure Inputs where
  forecastYears : Nat
  revenueGrowth : ℚ
  ebitMargin : ℚ
  taxRate : ℚ
  capexPct : ℚ
  daPct : Option ℚ
  nwcPct : ℚ
  wacc : ℚ
  terminalGrowth : ℚ
  netDebt : ℚ
  preferredEquity : Option ℚ
  minorityInterest : ℚ
  cashAndEquiv : ℚ
  sharesOutstanding : Option ℚ
  currentPrice : Option ℚ
  deriving DecidableEq

/-- `lastValue(series)` from 03_normalization.js / 05_dcf_engine.js: the last
non-null finite entry of a series (scan from the end). -/
def lastValue (series : List (Option ℚ)) : Option ℚ :=
  series.reverse.findSome? id

/-- JS truthiness filter for a number-or-null: `!x` is true for `null` and
for `0`, so `baseRevenue` guards like `if (!baseRevenue)` reject both. -/
def truthyNum : Option ℚ → Option ℚ
  | some x => if x = 0 then none else some x
  | none => none

/-- One iteration of the forecast loop of `calculateDCF`/`calculateDCFPure`
(03_normalization.js lines 715-727 and 796-816): all seven per-year series
derived from the previous year's revenue. -/
structure YearRow where
  rev : ℚ
  ebit : ℚ
  nopat : ℚ
  capex : ℚ
  da : ℚ
  nwcDelta : ℚ
  fcf : ℚ
  deriving DecidableEq, Inhabited

/-- Body of the forecast loop: one year projected from `prevRevenue`. -/
def projectRow (inp : Inputs) (prevRevenue : ℚ) : YearRow :=
  let rev := prevRevenue * (1 + inp.revenueGrowth)
  let ebit := rev * inp.ebitMargin
  let nopat := ebit * (1 - inp.taxRate)
  let capex := rev * inp.capexPct
  let da := match inp.daPct with
    | some d => rev * d
    | none => capex * 0.8
  let nwcDelta := (rev - prevRevenue) * inp.nwcPct
  let fcf := nopat + da - capex - nwcDelta
  ⟨rev, ebit, nopat, capex, da, nwcDelta, fcf⟩

/-- The forecast loop `for (i = 0; i < n; i++)`, threading
`prevRevenue = rev` exactly as the source does. -/
def projectList (inp : Inputs) (prevRevenue : ℚ) : Nat → List YearRow
  | 0 => []
  | n + 1 =>
    let row := projectRow inp prevRevenue
    row :: projectList inp row.rev n

/-- `forecastFCF.map((fcf, i) => fcf / Math.pow(1 + wacc, i + 0.5))`:
index-aware map producing the mid-year present values.  `sq` is the value of
`Math.pow(1 + wacc, 0.5)`. -/
def pvList (wacc sq : ℚ) : Nat → List ℚ → List ℚ
  | _, [] => []
  | i, f :: rest => f / ((1 + wacc) ^ i * sq) :: pvList wacc sq (i + 1) rest

/-- The ordinary (whole-period) NPV used inside `solveIRR`:
`cashFlows.reduce((sum, cf, i) => sum + cf / Math.pow(1 + rate, i), 0)`. -/
def npvAux (rate : ℚ) : Nat → List ℚ → ℚ
  | _, [] => 0
  | i, cf :: rest => cf / (1 + rate) ^ i + npvAux rate (i + 1) rest

/-- `npv(rate)` inside `solveIRR`. -/
def npvAt (cashFlows : List ℚ) (rate : ℚ) : ℚ := npvAux rate 0 cashFlows

/-- The bisection loop of `solveIRR` (03_normalization.js lines 690-698).
The `mid` argument carries the midpoint of the previous iteration (the JS
`let mid;` variable); the fuel counts the remaining iterations.  Note the
source recomputes `npv(lo)` every iteration and stops early when
`Math.abs(fMid) < tol` with `tol = 1e-7`. -/
def bisect (cashFlows : List ℚ) (lo hi mid : ℚ) : Nat → ℚ
  | 0 => mid
  | fuel + 1 =>
    let m := (lo + hi) / 2
    let fMid := npvAt cashFlows m
    if mathAbs fMid < 1 / 10 ^ 7 then m
    else if npvAt cashFlows lo * fMid < 0 then bisect cashFlows lo m m fuel
    else bisect cashFlows m hi m fuel

/-- `solveIRR(cashFlows)` with the default parameters `maxIter = 200`,
`tol = 1e-7` used by every call site.  Brackets `[-0.999, 10.0]`; returns
`null` when `npv(lo) * npv(hi) > 0` (no sign change).  The initial `mid`
passed to the loop is never returned because the fuel is positive. -/
def solveIRR (cashFlows : List ℚ) : Option ℚ :=
  let lo : ℚ := -(999 / 1000)
  let hi : ℚ := 10
  if npvAt cashFlows lo * npvAt cashFlows hi > 0 then none
  else some (bisect cashFlows lo hi 0 200)

/-- `irrCashFlows[irrCashFlows.length - 1] += terminalValue`. -/
def addToLast (x : ℚ) : List ℚ → List ℚ
  | [] => []
  | [a] => [a + x]
  | a :: b :: rest => a :: addToLast x (b :: rest)

/-- The fields of the object `calculateDCFPure` returns in the valid case.
Fields are `Option ℚ` because with an empty forecast (`forecastYears = 0`)
the JS reads `forecastFCF[n-1] = undefined` and every downstream value is
`NaN`; `none` models that contamination (and, for `impliedPrice`/`irr`, also
a genuine JS `null`). -/
structure PureOk where
  enterpriseValue : Option ℚ
  equityValue : Option ℚ
  impliedPrice : Option ℚ
  irr : Option ℚ
  pvTerminal : Option ℚ
  terminalValue : Option ℚ
  npvFCF : ℚ
  deriving DecidableEq

/-- Return value of `calculateDCFPure`: `{ valid: false }` or the full
result object. -/
inductive PureResult where
  | invalid
  | ok (r : PureOk)
  deriving DecidableEq

/-- Body of `calculateDCFPure` after the validation gates: the projection,
discounting, equity bridge and IRR for base revenue `baseRevenue`
(03_normalization.js lines 714-751). -/
def pureBody (sqf : ℚ → ℚ) (inputs : Inputs) (baseRevenue : ℚ) : PureResult :=
  let n := inputs.forecastYears
  let wacc := inputs.wacc
  let g := inputs.terminalGrowth
  let rows := projectList inputs baseRevenue n
  let forecastFCF := rows.map (·.fcf)
  let terminalFCF? := (forecastFCF[n - 1]?).map (· * (1 + g))
  let terminalValue? := terminalFCF?.map (· / (wacc - g))
  let pvFCFs := pvList wacc (sqf wacc) 0 forecastFCF
  let npvFCF := pvFCFs.foldl (· + ·) 0
  let pvTerminal? := terminalValue?.map (· / (1 + wacc) ^ n)
  let enterpriseValue? := pvTerminal?.map (npvFCF + ·)
  let equityValue? := enterpriseValue?.map (fun ev =>
    ev - inputs.netDebt - inputs.preferredEquity.getD 0
      - inputs.minorityInterest + inputs.cashAndEquiv)
  let impliedPrice? :=
    match equityValue?, inputs.sharesOutstanding with
    | some eq, some sh => if 0 < sh then some (eq / sh) else none
    | _, _ => none
  let irr? := equityValue?.bind (fun eq =>
    match terminalValue? with
    | some tv => solveIRR (addToLast tv (-eq :: forecastFCF))
    | none => none)
  .ok { enterpriseValue := enterpriseValue?
        equityValue := equityValue?
        impliedPrice := impliedPrice?
        irr := irr?
        pvTerminal := pvTerminal?
        terminalValue := terminalValue?
        npvFCF := npvFCF }

/-- `calculateDCFPure(inputs, historicalData)` (03_normalization.js lines
704-752): the pure evaluation used by sensitivity/attribution.  `sqf` is the
square-root oracle for the mid-year factor. -/
def calculateDCFPure (sqf : ℚ → ℚ) (inputs : Inputs)
    (historicalData : Historical) : PureResult :=
  match historicalData with
  | none => .invalid
  | some m =>
    if inputs.wacc ≤ inputs.terminalGrowth then .invalid
    else
      match truthyNum (lastValue m.revenue) with
      | none => .invalid
      | some baseRevenue => pureBody sqf inputs baseRevenue

/-- Enterprise value of a pure result (`none` when invalid or NaN). -/
def evOf : PureResult → Option ℚ
  | .invalid => none
  | .ok r => r.enterpriseValue

/-- Enterprise value with `0` standing in for invalid/NaN. -/
def evOrZero (r : PureResult) : ℚ := (evOf r).getD 0

/-- Implied price of a pure result (`none` when invalid, `null` or NaN). -/
def impliedOf : PureResult → Option ℚ
  | .invalid => none
  | .ok r => r.impliedPrice

/-- Validation errors pushed by `calculateDCF`.  The source builds prose
strings; the WACC message interpolates both the WACC and the terminal growth
percentages, which the constructor records as its two arguments. -/
inductive DCFError where
  | histNotLoaded
  | waccNotAboveTerminal (wacc terminalGrowth : ℚ)
  | noBaseRevenue
  deriving DecidableEq

/-- The per-year forecast arrays stored in `state.dcf.forecast`. -/
structure Forecast where
  revenue : List ℚ
  ebit : List ℚ
  nopat : List ℚ
  capex : List ℚ
  da : List ℚ
  nwcDelta : List ℚ
  fcf : List ℚ
  pvFCF : List ℚ
  deriving DecidableEq

/-- `state.dcf.summary` (display-only fields such as year labels and the
historical table slices are omitted; they carry no engine logic). -/
structure Summary where
  npvFCF : ℚ
  pvTerminal : Option ℚ
  terminalValue : Option ℚ
  enterpriseValue : Option ℚ
  netDebt : ℚ
  minorityInterest : ℚ
  cashAndEquiv : ℚ
  equityValue : Option ℚ
  impliedPrice : Option ℚ
  currentPrice : Option ℚ
  upside : Option ℚ
  irr : Option ℚ
  wacc : ℚ
  terminalGrowth : ℚ
  deriving DecidableEq

/-- The object `calculateDCF` stores in `state.dcf` and returns.  In the
error branches the source object has no `forecast`/`summary`/`inputs`
fields (`none` here). -/
structure DCFResult where
  valid : Bool
  errors : List DCFError
  inputs : Option Inputs
  forecast : Option Forecast
  summary : Option Summary
  deriving DecidableEq

/-- The shared session object `state`, restricted to the fields the modelled
functions touch: `calculateDCF` writes only `state.dcf`. -/
structure St where
  inputs : Inputs
  historical : Historical
  dcf : Option DCFResult
  deriving DecidableEq

/-- Error exit of `calculateDCF`: build the invalid result and store it. -/
def invalidResult (errors : List DCFError) (st : St) : DCFResult × St :=
  let r : DCFResult :=
    { valid := false, errors := errors, inputs := none
      forecast := none, summary := none }
  (r, { st with dcf := some r })

/-- Body of `calculateDCF` after the validation gates (03_normalization.js
lines 786-952): the forecast arrays, discounting, equity bridge, upside, IRR
and the stored result.  Identical math to `pureBody`, plus the full forecast
arrays, the upside and the summary. -/
def validBody (sqf : ℚ → ℚ) (inputs : Inputs) (baseRevenue : ℚ) (st : St) :
    DCFResult × St :=
  let n := inputs.forecastYears
  let wacc := inputs.wacc
  let g := inputs.terminalGrowth
  let rows := projectList inputs baseRevenue n
  let forecastFCF := rows.map (·.fcf)
  let terminalFCF? := (forecastFCF[n - 1]?).map (· * (1 + g))
  let terminalValue? := terminalFCF?.map (· / (wacc - g))
  let pvFCFs := pvList wacc (sqf wacc) 0 forecastFCF
  let npvFCF := pvFCFs.foldl (· + ·) 0
  let pvTerminal? := terminalValue?.map (· / (1 + wacc) ^ n)
  let enterpriseValue? := pvTerminal?.map (npvFCF + ·)
  let equityValue? := enterpriseValue?.map (fun ev =>
    ev - inputs.netDebt - inputs.preferredEquity.getD 0
      - inputs.minorityInterest + inputs.cashAndEquiv)
  let impliedPrice? :=
    match equityValue?, inputs.sharesOutstanding with
    | some eq, some sh => if 0 < sh then some (eq / sh) else none
    | _, _ => none
  let upside? :=
    match inputs.currentPrice, impliedPrice? with
    | some cp, some ip =>
      if cp = 0 ∨ ip = 0 then none else some ((ip - cp) / cp)
    | _, _ => none
  let irr? := equityValue?.bind (fun eq =>
    match terminalValue? with
    | some tv => solveIRR (addToLast tv (-eq :: forecastFCF))
    | none => none)
  let r : DCFResult :=
    { valid := true, errors := []
      inputs := some inputs
      forecast := some
        { revenue := rows.map (·.rev), ebit := rows.map (·.ebit)
          nopat := rows.map (·.nopat), capex := rows.map (·.capex)
          da := rows.map (·.da), nwcDelta := rows.map (·.nwcDelta)
          fcf := forecastFCF, pvFCF := pvFCFs }
      summary := some
        { npvFCF := npvFCF, pvTerminal := pvTerminal?
          terminalValue := terminalValue?
          enterpriseValue := enterpriseValue?
          netDebt := inputs.netDebt
          minorityInterest := inputs.minorityInterest
          cashAndEquiv := inputs.cashAndEquiv
          equityValue := equityValue?, impliedPrice := impliedPrice?
          currentPrice := inputs.currentPrice, upside := upside?
          irr := irr?, wacc := wacc, terminalGrowth := g } }
  (r, { st with dcf := some r })

/-- `calculateDCF(inputs, historicalData)` (03_normalization.js lines
758-952): validation, forecast projection, discounting, equity bridge, IRR,
and the write to `state.dcf`.  The error list keeps the source's push order
(historical-data error before the WACC error). -/
def calculateDCF (sqf : ℚ → ℚ) (inputs : Inputs) (historicalData : Historical)
    (st : St) : DCFResult × St :=
  let waccErrs : List DCFError :=
    if inputs.wacc ≤ inputs.terminalGrowth then
      [.waccNotAboveTerminal inputs.wacc inputs.terminalGrowth]
    else []
  match historicalData with
  | none => invalidResult (.histNotLoaded :: waccErrs) st
  | some m =>
    if inputs.wacc ≤ inputs.terminalGrowth then invalidResult waccErrs st
    else
      match truthyNum (lastValue m.revenue) with
      | none => invalidResult [.noBaseRevenue] st
      | some baseRevenue => validBody sqf inputs baseRevenue st

/-- The loop of `sensitivityPrice` (10a_sensitivity.js lines 40-51),
accumulating `(pvFCFSum, lastFCF)` with `prevRev` threaded; `i` is the loop
index (the discount exponent), the fuel counts the remaining years.  Note
this inline variant always uses `da = capex * 0.8`, ignoring `daPct`. -/
def sensLoop (inp : Inputs) (wacc sq : ℚ) :
    Nat → Nat → ℚ → ℚ → ℚ → ℚ × ℚ
  | 0, _, pvFCFSum, _, lastFCF => (pvFCFSum, lastFCF)
  | steps + 1, i, pvFCFSum, prevRev, _ =>
    let r := prevRev * (1 + inp.revenueGrowth)
    let nopat := r * inp.ebitMargin * (1 - inp.taxRate)
    let capex := r * inp.capexPct
    let da := capex * 0.8
    let nwc := (r - prevRev) * inp.nwcPct
    let fcf := nopat + da - capex - nwc
    sensLoop inp wacc sq steps (i + 1)
      (pvFCFSum + fcf / ((1 + wacc) ^ i * sq)) r fcf

/-- `sensitivityPrice(overrides)` (10a_sensitivity.js lines 14-61): the
lightweight in-memory DCF used by the sensitivity grid and the tornado.
`overrides` models the object spread `{...state.inputs, ...overrides}`.
The equity bridge here has no preferred-equity term (`netDebt`,
`minorityInterest`, `cashAndEquiv` appear under `|| 0`, the identity on the
required numeric fields), and when shares are missing or non-positive the
function returns the raw equity value, not `null`. -/
def sensitivityPrice (sqf : ℚ → ℚ) (st : St) (overrides : Inputs → Inputs) :
    Option ℚ :=
  match st.historical with
  | none => none
  | some m =>
    let inp := overrides st.inputs
    if inp.wacc ≤ inp.terminalGrowth then none
    else
      match truthyNum (lastValue m.revenue) with
      | none => none
      | some rev =>
        let wacc := inp.wacc
        let g := inp.terminalGrowth
        let n := inp.forecastYears
        let res := sensLoop inp wacc (sqf wacc) n 0 0 rev 0
        let pvFCFSum := res.1
        let lastFCF := res.2
        let terminalValue := lastFCF * (1 + g) / (wacc - g)
        let pvTerminal := terminalValue / (1 + wacc) ^ n
        let ev := pvFCFSum + pvTerminal
        let equity := ev - inp.netDebt - inp.minorityInterest + inp.cashAndEquiv
        match inp.sharesOutstanding with
        | none => some equity
        | some shares =>
          if shares ≤ 0 then some equity else some (equity / shares)

/-- The assumption keys addressed by the scenario sliders and sensitivity
axes (07_assumptions_panel.js `SCENARIO_SLIDERS`).  `exitMultiple` has no
counterpart in the engine ("not in core DCF engine yet") and is filtered out
before any evaluation. -/
inductive SliderKey where
  | wacc | revenueGrowth | ebitMargin | taxRate | capexPct
  | terminalGrowth | exitMultiple
  deriving DecidableEq

/-- `state.inputs[s.key]` for a slider key. -/
def sliderGet : SliderKey → Inputs → ℚ
  | .wacc, i => i.wacc
  | .revenueGrowth, i => i.revenueGrowth
  | .ebitMargin, i => i.ebitMargin
  | .taxRate, i => i.taxRate
  | .capexPct, i => i.capexPct
  | .terminalGrowth, i => i.terminalGrowth
  | .exitMultiple, _ => 0

/-- The override `{[s.key]: v}` for a slider key (identity for the
engine-less `exitMultiple`). -/
def sliderSet : SliderKey → ℚ → Inputs → Inputs
  | .wacc, v, i => { i with wacc := v }
  | .revenueGrowth, v, i => { i with revenueGrowth := v }
  | .ebitMargin, v, i => { i with ebitMargin := v }
  | .taxRate, v, i => { i with taxRate := v }
  | .capexPct, v, i => { i with capexPct := v }
  | .terminalGrowth, v, i => { i with terminalGrowth := v }
  | .exitMultiple, _, i => i

/-- A scenario slider: key and tornado perturbation size. -/
structure Slider where
  key : SliderKey
  delta : ℚ
  deriving DecidableEq

/-- `SCENARIO_SLIDERS` (07_assumptions_panel.js lines 195-203), keeping only
the fields the tornado uses (key and delta). -/
def SCENARIO_SLIDERS : List Slider :=
  [⟨.wacc, 0.01⟩, ⟨.revenueGrowth, 0.02⟩, ⟨.ebitMargin, 0.02⟩,
   ⟨.taxRate, 0.02⟩, ⟨.capexPct, 0.01⟩, ⟨.terminalGrowth, 0.005⟩,
   ⟨.exitMultiple, 2⟩]

/-- The `prices` matrix of `buildSensitivityTable` (10a_sensitivity.js lines
105-107): every cell is an independent `sensitivityPrice` call with the two
axis overrides. -/
def gridPrices (sqf : ℚ → ℚ) (st : St) (rowKey colKey : SliderKey)
    (rowValues colValues : List ℚ) : List (List (Option ℚ)) :=
  rowValues.map (fun rv =>
    colValues.map (fun cv =>
      sensitivityPrice sqf st (fun i => sliderSet colKey cv (sliderSet rowKey rv i))))

/-- One tornado row (07_assumptions_panel.js lines 231-243). -/
structure TornadoEntry where
  key : SliderKey
  hiDelta : ℚ
  loDelta : ℚ
  spread : ℚ
  deriving DecidableEq

/-- The entry `computeTornado` builds for one slider: perturb the driver by
`±delta` from `state.inputs`, score an invalid direction 0. -/
def tornadoEntryOf (sqf : ℚ → ℚ) (st : St) (basePrice : ℚ) (s : Slider) :
    TornadoEntry :=
  let hi := sensitivityPrice sqf st
    (sliderSet s.key (sliderGet s.key st.inputs + s.delta))
  let lo := sensitivityPrice sqf st
    (sliderSet s.key (sliderGet s.key st.inputs - s.delta))
  let hiDelta := match hi with | some h => h - basePrice | none => 0
  let loDelta := match lo with | some l => l - basePrice | none => 0
  { key := s.key, hiDelta := hiDelta, loDelta := loDelta
    spread := mathAbs hiDelta + mathAbs loDelta }

/-- `computeTornado()` (07_assumptions_panel.js lines 226-246): bail out on a
falsy base price (`null` or `0`), drop the engine-less `exitMultiple`, build
one entry per remaining slider and sort by spread, largest first.  JS
`Array.prototype.sort` is a stable sort by the comparator
`(a, b) => b.spread - a.spread`; it is modelled by the stable
`insertionSort` with the relation `b.spread ≤ a.spread`. -/
def computeTornado (sqf : ℚ → ℚ) (st : St) : List TornadoEntry :=
  match sensitivityPrice sqf st id with
  | none => []
  | some basePrice =>
    if basePrice = 0 then []
    else
      List.insertionSort (fun a b => b.spread ≤ a.spread)
        ((SCENARIO_SLIDERS.filter (fun s => s.key ≠ .exitMultiple)).map
          (tornadoEntryOf sqf st basePrice))

/-- Driver types used by attribution change detection. -/
inductive DriverType where
  | rate | dollar | shares
  deriving DecidableEq

/-- The assumption keys of `ATTRIBUTION_DRIVERS` (unnamed/part_002 lines
68-78). -/
inductive AttrKey where
  | revenueGrowth | ebitMargin | taxRate | capexPct | nwcPct
  | wacc | terminalGrowth | netDebt | sharesOutstanding
  deriving DecidableEq

/-- An attribution driver definition (label omitted). -/
structure AttrDriver where
  key : AttrKey
  type : DriverType
  deriving DecidableEq

/-- `ATTRIBUTION_DRIVERS` (unnamed/part_002 lines 68-78). -/
def ATTRIBUTION_DRIVERS : List AttrDriver :=
  [⟨.revenueGrowth, .rate⟩, ⟨.ebitMargin, .rate⟩, ⟨.taxRate, .rate⟩,
   ⟨.capexPct, .rate⟩, ⟨.nwcPct, .rate⟩, ⟨.wacc, .rate⟩,
   ⟨.terminalGrowth, .rate⟩, ⟨.netDebt, .dollar⟩,
   ⟨.sharesOutstanding, .shares⟩]

/-- `inputs[key]` for an attribution key; `sharesOutstanding` may be absent
(`null`), every other driver field is a required number. -/
def attrGet : AttrKey → Inputs → Option ℚ
  | .revenueGrowth, i => some i.revenueGrowth
  | .ebitMargin, i => some i.ebitMargin
  | .taxRate, i => some i.taxRate
  | .capexPct, i => some i.capexPct
  | .nwcPct, i => some i.nwcPct
  | .wacc, i => some i.wacc
  | .terminalGrowth, i => some i.terminalGrowth
  | .netDebt, i => some i.netDebt
  | .sharesOutstanding, i => i.sharesOutstanding

/-- `hasDriverChanged(driverDef, baseInputs, currentInputs)`
(unnamed/part_002 lines 221-233): `false` when either value is `null`;
rate drivers use the absolute 5 bps threshold; dollar/share drivers with a
zero base compare the current value against zero, otherwise use the 0.5%
relative threshold. -/
def hasDriverChanged (d : AttrDriver) (baseInputs currentInputs : Inputs) :
    Bool :=
  match attrGet d.key baseInputs, attrGet d.key currentInputs with
  | some bv, some cv =>
    match d.type with
    | .rate => decide (mathAbs (cv - bv) ≥ 0.0005)
    | _ =>
      if bv = 0 then decide (cv ≠ 0)
      else decide (mathAbs ((cv - bv) / bv) ≥ 0.005)
  | _, _ => false

end DCF

/-! ## Helper lemmas about the embedded operations -/

namespace DCF

theorem projectList_length (inp : Inputs) :
    ∀ (n : Nat) (prev : ℚ), (projectList inp prev n).length = n := by
  intro n
  induction n with
  | zero => intro prev; rfl
  | succ k ih => intro prev; simp [projectList, ih]

theorem projectList_getElem?_zero (inp : Inputs) (prev : ℚ) (n : Nat)
    (hn : 0 < n) : (projectList inp prev n)[0]? = some (projectRow inp prev) := by
  cases n with
  | zero => exact absurd hn (by simp)
  | succ k => simp [projectList]

theorem projectList_getElem?_succ (inp : Inputs) :
    ∀ (n i : Nat) (prev : ℚ), i + 1 < n →
      ∀ r, (projectList inp prev n)[i]? = some r →
        (projectList inp prev n)[i + 1]? = some (projectRow inp r.rev) := by
  intro n
  induction n with
  | zero => intro i prev h; exact absurd h (by simp)
  | succ k ih =>
    intro i prev h r hr
    cases i with
    | zero =>
      simp only [projectList, List.getElem?_cons_zero, Option.some.injEq] at hr
      simp only [projectList, List.getElem?_cons_succ]
      rw [← hr]
      exact projectList_getElem?_zero inp _ k (by omega)
    | succ j =>
      simp only [projectList, List.getElem?_cons_succ] at hr ⊢
      exact ih j _ (by omega) r hr

theorem pvList_getElem? (wacc sq : ℚ) :
    ∀ (l : List ℚ) (k i : Nat), i < l.length →
      (pvList wacc sq k l)[i]? = (l[i]?).map (· / ((1 + wacc) ^ (k + i) * sq)) := by
  intro l
  induction l with
  | nil => intro k i h; exact absurd h (by simp)
  | cons f rest ih =>
    intro k i h
    cases i with
    | zero => simp [pvList]
    | succ j =>
      simp only [pvList, List.getElem?_cons_succ]
      rw [ih (k + 1) j (by simpa using h)]
      have hkj : k + 1 + j = k + (j + 1) := by omega
      rw [hkj]

theorem pvList_length (wacc sq : ℚ) :
    ∀ (l : List ℚ) (k : Nat), (pvList wacc sq k l).length = l.length := by
  intro l
  induction l with
  | nil => intro k; rfl
  | cons f rest ih => intro k; simp [pvList, ih]

theorem foldl_add_shift (l : List ℚ) :
    ∀ a : ℚ, l.foldl (· + ·) a = a + l.foldl (· + ·) 0 := by
  induction l with
  | nil => intro a; simp
  | cons x rest ih =>
    intro a
    simp only [List.foldl_cons]
    rw [ih (a + x), ih (0 + x)]
    ring

theorem calculateDCFPure_eq_pureBody (sqf : ℚ → ℚ) (inp : Inputs)
    (m : Metrics) (b : ℚ) (hb : truthyNum (lastValue m.revenue) = some b)
    (hw : inp.terminalGrowth < inp.wacc) :
    calculateDCFPure sqf inp (some m) = pureBody sqf inp b := by
  simp [calculateDCFPure, hb, not_le.mpr hw]

theorem calculateDCF_eq_validBody (sqf : ℚ → ℚ) (inp : Inputs)
    (m : Metrics) (st : St) (b : ℚ)
    (hb : truthyNum (lastValue m.revenue) = some b)
    (hw : inp.terminalGrowth < inp.wacc) :
    calculateDCF sqf inp (some m) st = validBody sqf inp b st := by
  simp [calculateDCF, hb, not_le.mpr hw]

theorem projectRow_wacc_irrel (inp : Inputs) (w prev : ℚ) :
    projectRow { inp with wacc := w } prev = projectRow inp prev := rfl

theorem projectRow_growth_irrel (inp : Inputs) (g prev : ℚ) :
    projectRow { inp with terminalGrowth := g } prev = projectRow inp prev := rfl

theorem projectList_wacc_irrel (inp : Inputs) (w : ℚ) :
    ∀ (n : Nat) (prev : ℚ),
      projectList { inp with wacc := w } prev n = projectList inp prev n := by
  intro n
  induction n with
  | zero => intro prev; rfl
  | succ k ih =>
    intro prev
    simp only [projectList, projectRow_wacc_irrel, ih]

theorem projectList_growth_irrel (inp : Inputs) (g : ℚ) :
    ∀ (n : Nat) (prev : ℚ),
      projectList { inp with terminalGrowth := g } prev n = projectList inp prev n := by
  intro n
  induction n with
  | zero => intro prev; rfl
  | succ k ih =>
    intro prev
    simp only [projectList, projectRow_growth_irrel, ih]

theorem getLast?_of_length (l : List ℚ) (n : Nat) (hl : l.length = n) :
    l.getLast? = l[n - 1]? := by
  rw [List.getLast?_eq_getElem?, hl]

theorem sq_oracle_pos_base {sq w : ℚ} (hp : 0 < sq) (hs : sq ^ 2 = 1 + w) :
    0 < 1 + w := by
  rw [← hs]; positivity

theorem sq_oracle_lt {sq1 sq2 w1 w2 : ℚ} (hp1 : 0 < sq1)
    (hs1 : sq1 ^ 2 = 1 + w1) (hp2 : 0 < sq2) (hs2 : sq2 ^ 2 = 1 + w2)
    (hw : w1 < w2) : sq1 < sq2 := by
  nlinarith

theorem midYearFactor_lt {sq1 sq2 w1 w2 : ℚ} (hp1 : 0 < sq1)
    (hs1 : sq1 ^ 2 = 1 + w1) (hp2 : 0 < sq2) (hs2 : sq2 ^ 2 = 1 + w2)
    (hw : w1 < w2) (k : Nat) : (1 + w1) ^ k * sq1 < (1 + w2) ^ k * sq2 := by
  have h1 : 0 < 1 + w1 := sq_oracle_pos_base hp1 hs1
  have h2 : (1 + w1) ^ k ≤ (1 + w2) ^ k := pow_le_pow_left₀ h1.le (by linarith) k
  have h3 : sq1 < sq2 := sq_oracle_lt hp1 hs1 hp2 hs2 hw
  have h4 : 0 < (1 + w1) ^ k := pow_pos h1 k
  calc (1 + w1) ^ k * sq1 < (1 + w1) ^ k * sq2 := mul_lt_mul_of_pos_left h3 h4
    _ ≤ (1 + w2) ^ k * sq2 := mul_le_mul_of_nonneg_right h2 hp2.le

theorem pv_entry_lt {sq1 sq2 w1 w2 f : ℚ} (hf : 0 < f) (hp1 : 0 < sq1)
    (hs1 : sq1 ^ 2 = 1 + w1) (hp2 : 0 < sq2) (hs2 : sq2 ^ 2 = 1 + w2)
    (hw : w1 < w2) (k : Nat) :
    f / ((1 + w2) ^ k * sq2) < f / ((1 + w1) ^ k * sq1) := by
  have hd1 : 0 < (1 + w1) ^ k * sq1 :=
    mul_pos (pow_pos (sq_oracle_pos_base hp1 hs1) k) hp1
  exact div_lt_div_of_pos_left hf hd1 (midYearFactor_lt hp1 hs1 hp2 hs2 hw k)

theorem pvList_sum_cons (w sq f : ℚ) (rest : List ℚ) (k : Nat) :
    (pvList w sq k (f :: rest)).foldl (· + ·) 0 =
      f / ((1 + w) ^ k * sq) + (pvList w sq (k + 1) rest).foldl (· + ·) 0 := by
  simp only [pvList, List.foldl_cons]
  rw [foldl_add_shift]
  ring

theorem pvList_sum_le {sq1 sq2 w1 w2 : ℚ} (hp1 : 0 < sq1)
    (hs1 : sq1 ^ 2 = 1 + w1) (hp2 : 0 < sq2) (hs2 : sq2 ^ 2 = 1 + w2)
    (hw : w1 < w2) :
    ∀ (l : List ℚ), (∀ x ∈ l, 0 < x) → ∀ k,
      (pvList w2 sq2 k l).foldl (· + ·) 0 ≤ (pvList w1 sq1 k l).foldl (· + ·) 0 := by
  intro l
  induction l with
  | nil => intro _ k; exact le_refl _
  | cons f rest ih =>
    intro hpos k
    rw [pvList_sum_cons, pvList_sum_cons]
    have hf : 0 < f := hpos f (by simp)
    have hhead := pv_entry_lt hf hp1 hs1 hp2 hs2 hw k
    have htail := ih (fun x hx => hpos x (by simp [hx])) (k + 1)
    linarith

theorem pvList_sum_lt {sq1 sq2 w1 w2 : ℚ} (hp1 : 0 < sq1)
    (hs1 : sq1 ^ 2 = 1 + w1) (hp2 : 0 < sq2) (hs2 : sq2 ^ 2 = 1 + w2)
    (hw : w1 < w2) (l : List ℚ) (hpos : ∀ x ∈ l, 0 < x) (hne : l ≠ []) (k : Nat) :
    (pvList w2 sq2 k l).foldl (· + ·) 0 < (pvList w1 sq1 k l).foldl (· + ·) 0 := by
  cases l with
  | nil => exact absurd rfl hne
  | cons f rest =>
    rw [pvList_sum_cons, pvList_sum_cons]
    have hf : 0 < f := hpos f (by simp)
    have hhead := pv_entry_lt hf hp1 hs1 hp2 hs2 hw k
    have htail := pvList_sum_le hp1 hs1 hp2 hs2 hw rest
      (fun x hx => hpos x (by simp [hx])) (k + 1)
    linarith

theorem termPV_lt_wacc {lf g w1 w2 : ℚ} (hf : 0 < lf) (hg : -1 < g)
    (hgw : g < w1) (hw : w1 < w2) (h1 : 0 < 1 + w1)
    (n : Nat) :
    lf * (1 + g) / (w2 - g) / (1 + w2) ^ n <
      lf * (1 + g) / (w1 - g) / (1 + w1) ^ n := by
  rw [div_div, div_div]
  have hnum : 0 < lf * (1 + g) := mul_pos hf (by linarith)
  have hd1 : 0 < (w1 - g) * (1 + w1) ^ n :=
    mul_pos (by linarith) (pow_pos h1 n)
  have hlt : (w1 - g) * (1 + w1) ^ n < (w2 - g) * (1 + w2) ^ n := by
    have hp : (1 + w1) ^ n ≤ (1 + w2) ^ n := pow_le_pow_left₀ h1.le (by linarith) n
    calc (w1 - g) * (1 + w1) ^ n < (w2 - g) * (1 + w1) ^ n :=
          mul_lt_mul_of_pos_right (by linarith) (pow_pos h1 n)
      _ ≤ (w2 - g) * (1 + w2) ^ n := mul_le_mul_of_nonneg_left hp (by linarith)
  exact div_lt_div_of_pos_left hnum hd1 hlt

theorem termPV_lt_growth {lf g1 g2 w : ℚ} (hf : 0 < lf) (h12 : g1 < g2)
    (h2w : g2 < w) (h1w : 0 < 1 + w) (n : Nat) :
    lf * (1 + g1) / (w - g1) / (1 + w) ^ n <
      lf * (1 + g2) / (w - g2) / (1 + w) ^ n := by
  have hpn : 0 < (1 + w) ^ n := pow_pos h1w n
  refine (div_lt_div_iff_of_pos_right hpn).mpr ?_
  rw [div_lt_div_iff₀ (by linarith) (by linarith)]
  nlinarith [mul_pos (mul_pos hf (sub_pos.mpr h12)) h1w]

theorem pureBody_ev (sqf : ℚ → ℚ) (inp : Inputs) (b lf : ℚ)
    (hlf : ((projectList inp b inp.forecastYears).map (·.fcf))[inp.forecastYears - 1]? = some lf) :
    evOf (pureBody sqf inp b) =
      some ((pvList inp.wacc (sqf inp.wacc) 0
          ((projectList inp b inp.forecastYears).map (·.fcf))).foldl (· + ·) 0
        + lf * (1 + inp.terminalGrowth) / (inp.wacc - inp.terminalGrowth)
            / (1 + inp.wacc) ^ inp.forecastYears) := by
  simp [pureBody, evOf, hlf]

theorem getLast?_cons_getD (a d : ℚ) (l : List ℚ) :
    ((a :: l).getLast?).getD d = (l.getLast?).getD a := by
  cases l with
  | nil => rfl
  | cons b t =>
    rw [List.getLast?_cons_cons]
    cases h : (b :: t).getLast? with
    | none => simp at h
    | some x => rfl

theorem sens_fcf_eq (inp : Inputs) (hda : inp.daPct = none) (prev : ℚ) :
    prev * (1 + inp.revenueGrowth) * inp.ebitMargin * (1 - inp.taxRate)
      + prev * (1 + inp.revenueGrowth) * inp.capexPct * 0.8
      - prev * (1 + inp.revenueGrowth) * inp.capexPct
      - (prev * (1 + inp.revenueGrowth) - prev) * inp.nwcPct
      = (projectRow inp prev).fcf := by
  simp [projectRow, hda]

theorem sensLoop_spec (inp : Inputs) (hda : inp.daPct = none) (w sq : ℚ) :
    ∀ (steps i : Nat) (acc prev lf : ℚ),
      sensLoop inp w sq steps i acc prev lf =
        (acc + (pvList w sq i ((projectList inp prev steps).map (·.fcf))).foldl (· + ·) 0,
         (((projectList inp prev steps).map (·.fcf)).getLast?).getD lf) := by
  intro steps
  induction steps with
  | zero => intro i acc prev lf; simp [sensLoop, projectList, pvList]
  | succ k ih =>
    intro i acc prev lf
    simp only [sensLoop]
    rw [ih]
    simp only [projectList, List.map_cons]
    refine Prod.ext ?_ ?_
    · show acc + _ + _ = acc + _
      rw [pvList_sum_cons]
      have hrev : (projectRow inp prev).rev = prev * (1 + inp.revenueGrowth) := rfl
      rw [← sens_fcf_eq inp hda prev, hrev]
      ring
    · show (((projectList inp _ k).map (·.fcf)).getLast?).getD _ = _
      rw [getLast?_cons_getD]
      have hrev : (projectRow inp prev).rev = prev * (1 + inp.revenueGrowth) := rfl
      rw [← sens_fcf_eq inp hda prev, hrev]

theorem calculateDCF_fst_state_irrel (sqf : ℚ → ℚ) (inp : Inputs)
    (hist : Historical) (st st2 : St) :
    (calculateDCF sqf inp hist st).1 = (calculateDCF sqf inp hist st2).1 := by
  unfold calculateDCF invalidResult validBody
  cases hist with
  | none => rfl
  | some m =>
    by_cases h : inp.wacc ≤ inp.terminalGrowth
    · simp only [if_pos h]
    · simp only [if_neg h]
      cases truthyNum (lastValue m.revenue) <;> rfl

theorem calculateDCF_snd_preserves (sqf : ℚ → ℚ) (inp : Inputs)
    (hist : Historical) (st : St) :
    ((calculateDCF sqf inp hist st).2).inputs = st.inputs ∧
      ((calculateDCF sqf inp hist st).2).historical = st.historical ∧
      ((calculateDCF sqf inp hist st).2).dcf = some (calculateDCF sqf inp hist st).1 := by
  unfold calculateDCF invalidResult validBody
  cases hist with
  | none => exact ⟨rfl, rfl, rfl⟩
  | some m =>
    by_cases h : inp.wacc ≤ inp.terminalGrowth
    · simp [h]
    · simp only [if_neg h]
      cases truthyNum (lastValue m.revenue) <;> simp

/-! ## Claim theorems -/

/-- C1: whenever `wacc ≤ terminalGrowth`, `calculateDCF` returns an invalid
tagged result (no exception is possible: the embedded function is total)
whose error list contains the message recording both the WACC value and the
terminal growth value, and neither a forecast nor a summary is computed;
`calculateDCFPure` likewise returns its tagged invalid result. -/
theorem validation_gate_wacc_le_growth (sqf : ℚ → ℚ) (inp : Inputs)
    (hist : Historical) (st : St) (hw : inp.wacc ≤ inp.terminalGrowth) :
    (calculateDCF sqf inp hist st).1.valid = false ∧
      DCFError.waccNotAboveTerminal inp.wacc inp.terminalGrowth ∈
        (calculateDCF sqf inp hist st).1.errors ∧
      (calculateDCF sqf inp hist st).1.forecast = none ∧
      (calculateDCF sqf inp hist st).1.summary = none ∧
      calculateDCFPure sqf inp hist = .invalid := by
  cases hist with
  | none => simp [calculateDCF, invalidResult, hw, calculateDCFPure]
  | some m => simp [calculateDCF, invalidResult, hw, calculateDCFPure]

/-- C1 witness: a concrete assumption set with `wacc = 2% ≤ 2.5% =
terminalGrowth` is rejected with the two-rate error and no forecast. -/
theorem validation_gate_wacc_le_growth_witness :
    ((21 : ℚ) / 1000 ≤ 25 / 1000) ∧
      ((calculateDCF (fun _ => 1)
          { forecastYears := 5, revenueGrowth := 0, ebitMargin := 1/5,
            taxRate := 1/4, capexPct := 1/20, daPct := none, nwcPct := 1/50,
            wacc := 21/1000, terminalGrowth := 25/1000, netDebt := 0,
            preferredEquity := none, minorityInterest := 0, cashAndEquiv := 0,
            sharesOutstanding := none, currentPrice := none }
          (some ⟨[some 1000]⟩)
          ⟨{ forecastYears := 5, revenueGrowth := 0, ebitMargin := 1/5,
             taxRate := 1/4, capexPct := 1/20, daPct := none, nwcPct := 1/50,
             wacc := 21/1000, terminalGrowth := 25/1000, netDebt := 0,
             preferredEquity := none, minorityInterest := 0, cashAndEquiv := 0,
             sharesOutstanding := none, currentPrice := none },
           some ⟨[some 1000]⟩, none⟩).1.valid = false ∧
        DCFError.waccNotAboveTerminal (21/1000) (25/1000) ∈
          (calculateDCF (fun _ => 1)
            { forecastYears := 5, revenueGrowth := 0, ebitMargin := 1/5,
              taxRate := 1/4, capexPct := 1/20, daPct := none, nwcPct := 1/50,
              wacc := 21/1000, terminalGrowth := 25/1000, netDebt := 0,
              preferredEquity := none, minorityInterest := 0, cashAndEquiv := 0,
              sharesOutstanding := none, currentPrice := none }
            (some ⟨[some 1000]⟩)
            ⟨{ forecastYears := 5, revenueGrowth := 0, ebitMargin := 1/5,
               taxRate := 1/4, capexPct := 1/20, daPct := none, nwcPct := 1/50,
               wacc := 21/1000, terminalGrowth := 25/1000, netDebt := 0,
               preferredEquity := none, minorityInterest := 0, cashAndEquiv := 0,
               sharesOutstanding := none, currentPrice := none },
             some ⟨[some 1000]⟩, none⟩).1.errors) := by
  refine ⟨by norm_num, ?_⟩
  have h := validation_gate_wacc_le_growth (fun _ => 1)
    { forecastYears := 5, revenueGrowth := 0, ebitMargin := 1/5,
      taxRate := 1/4, capexPct := 1/20, daPct := none, nwcPct := 1/50,
      wacc := 21/1000, terminalGrowth := 25/1000, netDebt := 0,
      preferredEquity := none, minorityInterest := 0, cashAndEquiv := 0,
      sharesOutstanding := none, currentPrice := none }
    (some ⟨[some 1000]⟩)
    ⟨{ forecastYears := 5, revenueGrowth := 0, ebitMargin := 1/5,
       taxRate := 1/4, capexPct := 1/20, daPct := none, nwcPct := 1/50,
       wacc := 21/1000, terminalGrowth := 25/1000, netDebt := 0,
       preferredEquity := none, minorityInterest := 0, cashAndEquiv := 0,
       sharesOutstanding := none, currentPrice := none },
     some ⟨[some 1000]⟩, none⟩ (by norm_num)
  exact ⟨h.1, h.2.1⟩

/-- C4: evaluation is pure and idempotent.  The pure facade is a function of
its arguments only, so two calls with identical inputs return identical
results; the stateful facade writes only `state.dcf`, leaving the caller's
`state.inputs` and `state.historical` untouched, and re-running it after its
own state write returns the same result object. -/
theorem evaluation_pure_and_idempotent (sqf : ℚ → ℚ) (inp : Inputs)
    (hist : Historical) (st : St) :
    calculateDCFPure sqf inp hist = calculateDCFPure sqf inp hist ∧
      ((calculateDCF sqf inp hist st).2).inputs = st.inputs ∧
      ((calculateDCF sqf inp hist st).2).historical = st.historical ∧
      (calculateDCF sqf inp hist ((calculateDCF sqf inp hist st).2)).1 =
        (calculateDCF sqf inp hist st).1 := by
  refine ⟨rfl, (calculateDCF_snd_preserves sqf inp hist st).1,
    (calculateDCF_snd_preserves sqf inp hist st).2.1, ?_⟩
  exact calculateDCF_fst_state_irrel sqf inp hist _ st

/-- C10: for dollar- or share-typed attribution drivers whose base-case
value is exactly 0, `hasDriverChanged` reports a change exactly when the
current value is nonzero; the relative-change branch is never taken, so the
detector is total on numeric base/current values. -/
theorem hasDriverChanged_zero_base (d : AttrDriver) (binp cinp : Inputs)
    (hty : d.type ≠ .rate) (hb : attrGet d.key binp = some 0) (c : ℚ)
    (hc : attrGet d.key cinp = some c) :
    (hasDriverChanged d binp cinp = true ↔ c ≠ 0) := by
  unfold hasDriverChanged
  rw [hb, hc]
  cases h : d.type with
  | rate => exact absurd h hty
  | dollar => simp
  | shares => simp

theorem getD_map_of_lt {α β : Type} (g : α → β) (l : List α) (i : Nat)
    (hi : i < l.length) (d : β) (d2 : α) :
    (l.map g).getD i d = g (l.getD i d2) := by
  rw [List.getD_eq_getElem?_getD, List.getElem?_map,
    List.getElem?_eq_getElem hi, List.getD_eq_getElem?_getD,
    List.getElem?_eq_getElem hi]
  rfl

theorem projectList_getD_zero (inp : Inputs) (prev : ℚ) (n : Nat)
    (hn : 0 < n) :
    (projectList inp prev n).getD 0 default = projectRow inp prev := by
  rw [List.getD_eq_getElem?_getD, projectList_getElem?_zero inp prev n hn]
  rfl

theorem projectList_getD_succ (inp : Inputs) (n i : Nat) (prev : ℚ)
    (h : i + 1 < n) :
    (projectList inp prev n).getD (i + 1) default =
      projectRow inp ((projectList inp prev n).getD i default).rev := by
  have hlen := projectList_length inp n prev
  have hi : i < (projectList inp prev n).length := by omega
  have h1 : (projectList inp prev n)[i]? =
      some ((projectList inp prev n).getD i default) := by
    rw [List.getElem?_eq_getElem hi, List.getD_eq_getElem?_getD,
      List.getElem?_eq_getElem hi]
    rfl
  have h2 := projectList_getElem?_succ inp n i prev h _ h1
  rw [List.getD_eq_getElem?_getD, h2]
  rfl

/-- C2: on every valid evaluation the stored `pvFCF` series discounts each
forecast FCF mid-year - `pvFCF[i] = fcf[i] / ((1+wacc)^i * sqrt(1+wacc))`,
i.e. by `(1+wacc)^(i+0.5)` - while the stored Gordon-Growth terminal value
`fcf[last] * (1+g) / (wacc-g)` is discounted at the plain full-year factor
`(1+wacc)^forecastYears`, with no mid-year half step.  `sqf` is the
square-root oracle: the hypotheses pin `sqf wacc` to `sqrt(1+wacc)`. -/
theorem midyear_fcf_fullyear_terminal (sqf : ℚ → ℚ) (inp : Inputs)
    (m : Metrics) (st : St) (b : ℚ)
    (hb : truthyNum (lastValue m.revenue) = some b)
    (hw : inp.terminalGrowth < inp.wacc)
    (_hsqp : 0 < sqf inp.wacc) (_hsq : sqf inp.wacc ^ 2 = 1 + inp.wacc) :
    ∃ f s, (calculateDCF sqf inp (some m) st).1.forecast = some f ∧
      (calculateDCF sqf inp (some m) st).1.summary = some s ∧
      f.pvFCF.length = f.fcf.length ∧
      (∀ i, i < f.fcf.length →
        f.pvFCF[i]? =
          some (f.fcf.getD i 0 / ((1 + inp.wacc) ^ i * sqf inp.wacc))) ∧
      (∀ lf, f.fcf.getLast? = some lf →
        s.terminalValue =
          some (lf * (1 + inp.terminalGrowth) / (inp.wacc - inp.terminalGrowth)) ∧
        s.pvTerminal =
          some (lf * (1 + inp.terminalGrowth) / (inp.wacc - inp.terminalGrowth)
            / (1 + inp.wacc) ^ inp.forecastYears)) := by
  rw [calculateDCF_eq_validBody sqf inp m st b hb hw]
  refine ⟨_, _, rfl, rfl, ?_, ?_, ?_⟩
  · exact pvList_length _ _ _ _
  · intro i hi
    show (pvList inp.wacc (sqf inp.wacc) 0 _)[i]? = _
    rw [pvList_getElem? _ _ _ 0 i (by simpa using hi)]
    rw [List.getElem?_eq_getElem (by simpa using hi)]
    rw [List.getD_eq_getElem?_getD, List.getElem?_eq_getElem (by simpa using hi)]
    simp
  · intro lf hlf
    have hlen : ((projectList inp b inp.forecastYears).map (·.fcf)).length =
        inp.forecastYears := by
      rw [List.length_map, projectList_length]
    rw [getLast?_of_length _ _ hlen] at hlf
    show Option.map _ (Option.map _ _) = _ ∧
      Option.map _ (Option.map _ (Option.map _ _)) = _
    rw [hlf]
    exact ⟨rfl, rfl⟩

/-- C3: on every valid evaluation the stored forecast series obey the
projection recurrences: revenue compounds from the base revenue at
`1 + revenueGrowth`, EBIT/NOPAT/capex/D&A are the stated multiples of
same-year revenue (D&A falling back to `capex * 0.8` when `daPct` is null),
the NWC delta scales with the revenue change, and
`fcf = nopat + da - capex - nwcDelta`.  The inputs are arbitrary rationals:
negative growth or margins flow through with no clamping. -/
theorem forecast_recurrences (sqf : ℚ → ℚ) (inp : Inputs) (m : Metrics)
    (st : St) (b : ℚ) (hb : truthyNum (lastValue m.revenue) = some b)
    (hw : inp.terminalGrowth < inp.wacc) :
    ∃ f, (calculateDCF sqf inp (some m) st).1.forecast = some f ∧
      f.revenue.length = inp.forecastYears ∧
      ∀ i, i < inp.forecastYears →
        (f.revenue.getD i 0 =
          (if i = 0 then b else f.revenue.getD (i - 1) 0) * (1 + inp.revenueGrowth)) ∧
        (f.ebit.getD i 0 = f.revenue.getD i 0 * inp.ebitMargin) ∧
        (f.nopat.getD i 0 = f.ebit.getD i 0 * (1 - inp.taxRate)) ∧
        (f.capex.getD i 0 = f.revenue.getD i 0 * inp.capexPct) ∧
        (f.da.getD i 0 = match inp.daPct with
          | some d => f.revenue.getD i 0 * d
          | none => f.capex.getD i 0 * 0.8) ∧
        (f.nwcDelta.getD i 0 =
          (f.revenue.getD i 0 - (if i = 0 then b else f.revenue.getD (i - 1) 0))
            * inp.nwcPct) ∧
        (f.fcf.getD i 0 =
          f.nopat.getD i 0 + f.da.getD i 0 - f.capex.getD i 0 - f.nwcDelta.getD i 0) := by
  rw [calculateDCF_eq_validBody sqf inp m st b hb hw]
  refine ⟨_, rfl, ?_, ?_⟩
  · rw [List.length_map, projectList_length]
  · dsimp only
    intro i hi
    have hlen := projectList_length inp inp.forecastYears b
    set rows := projectList inp b inp.forecastYears with hrows
    have hil : i < rows.length := by omega
    have hm : ∀ (g : YearRow → ℚ) (k : Nat), k < rows.length →
        (rows.map g).getD k 0 = g (rows.getD k default) := by
      intro g k hk
      exact getD_map_of_lt g rows k hk 0 default
    cases i with
    | zero =>
      have h0 : rows.getD 0 default = projectRow inp b :=
        projectList_getD_zero inp b inp.forecastYears (by omega)
      have hif0 : ∀ x : ℚ, (if (0 : Nat) = 0 then b else x) = b := fun x => if_pos rfl
      refine ⟨?_, ?_, ?_, ?_, ?_, ?_, ?_⟩
      · rw [hm (·.rev) 0 hil, h0, hif0]; simp only [projectRow]
      · rw [hm (·.ebit) 0 hil, hm (·.rev) 0 hil, h0]; simp only [projectRow]
      · rw [hm (·.nopat) 0 hil, hm (·.ebit) 0 hil, h0]; simp only [projectRow]
      · rw [hm (·.capex) 0 hil, hm (·.rev) 0 hil, h0]; simp only [projectRow]
      · rw [hm (·.da) 0 hil, h0]
        cases hda : inp.daPct with
        | none => rw [hm (·.capex) 0 hil, h0]; simp only [projectRow, hda]
        | some d => rw [hm (·.rev) 0 hil, h0]; simp only [projectRow, hda]
      · rw [hm (·.nwcDelta) 0 hil, hm (·.rev) 0 hil, h0, hif0]
        simp only [projectRow]
      · rw [hm (·.fcf) 0 hil, hm (·.nopat) 0 hil, hm (·.da) 0 hil,
          hm (·.capex) 0 hil, hm (·.nwcDelta) 0 hil, h0]
        simp only [projectRow]
    | succ j =>
      have hjl : j < rows.length := by omega
      have hsucc : rows.getD (j + 1) default =
          projectRow inp ((rows.getD j default).rev) :=
        projectList_getD_succ inp inp.forecastYears j b (by omega)
      have hifS : ∀ x : ℚ, (if j + 1 = 0 then b else x) = x :=
        fun x => if_neg (Nat.succ_ne_zero j)
      refine ⟨?_, ?_, ?_, ?_, ?_, ?_, ?_⟩
      · rw [hm (·.rev) (j + 1) hil, hifS, Nat.add_sub_cancel,
          hm (·.rev) j hjl, hsucc]
        simp only [projectRow]
      · rw [hm (·.ebit) (j + 1) hil, hm (·.rev) (j + 1) hil, hsucc]
        simp only [projectRow]
      · rw [hm (·.nopat) (j + 1) hil, hm (·.ebit) (j + 1) hil, hsucc]
        simp only [projectRow]
      · rw [hm (·.capex) (j + 1) hil, hm (·.rev) (j + 1) hil, hsucc]
        simp only [projectRow]
      · rw [hm (·.da) (j + 1) hil, hsucc]
        cases hda : inp.daPct with
        | none => rw [hm (·.capex) (j + 1) hil, hsucc]; simp only [projectRow, hda]
        | some d => rw [hm (·.rev) (j + 1) hil, hsucc]; simp only [projectRow, hda]
      · rw [hm (·.nwcDelta) (j + 1) hil, hm (·.rev) (j + 1) hil, hifS,
          Nat.add_sub_cancel, hm (·.rev) j hjl, hsucc]
        simp only [projectRow]
      · rw [hm (·.fcf) (j + 1) hil, hm (·.nopat) (j + 1) hil,
          hm (·.da) (j + 1) hil, hm (·.capex) (j + 1) hil,
          hm (·.nwcDelta) (j + 1) hil, hsucc]
        simp only [projectRow]

/-- The tornado comparator `(a, b) => b.spread - a.spread` orders entries by
descending spread; it is total. -/
instance : IsTotal TornadoEntry (fun a b => b.spread ≤ a.spread) :=
  ⟨fun a b => le_total b.spread a.spread⟩

/-- The descending-spread comparator is transitive. -/
instance : IsTrans TornadoEntry (fun a b => b.spread ≤ a.spread) :=
  ⟨fun _ _ _ h1 h2 => le_trans h2 h1⟩

/-- C7: whenever the base price is truthy, `computeTornado` returns exactly
one entry per scenario slider other than `exitMultiple` (a permutation of
the per-driver entries, none dropped - a direction whose perturbed model is
invalid contributed 0 inside `tornadoEntryOf`), sorted descending by
`spread = |hiDelta| + |loDelta|`. -/
theorem computeTornado_complete_sorted (sqf : ℚ → ℚ) (st : St) (b : ℚ)
    (hbase : sensitivityPrice sqf st id = some b) (hb0 : b ≠ 0) :
    List.Perm (computeTornado sqf st)
      ((SCENARIO_SLIDERS.filter (fun s => s.key ≠ .exitMultiple)).map
        (tornadoEntryOf sqf st b)) ∧
      List.Sorted (fun a b : TornadoEntry => b.spread ≤ a.spread)
        (computeTornado sqf st) ∧
      (computeTornado sqf st).length =
        (SCENARIO_SLIDERS.filter (fun s => s.key ≠ .exitMultiple)).length ∧
      ∀ e ∈ computeTornado sqf st,
        e.spread = mathAbs e.hiDelta + mathAbs e.loDelta := by
  have hct : computeTornado sqf st =
      List.insertionSort (fun a b => b.spread ≤ a.spread)
        ((SCENARIO_SLIDERS.filter (fun s => s.key ≠ .exitMultiple)).map
          (tornadoEntryOf sqf st b)) := by
    unfold computeTornado
    rw [hbase]
    simp [hb0]
  rw [hct]
  refine ⟨List.perm_insertionSort _ _, List.sorted_insertionSort _ _, ?_, ?_⟩
  · rw [List.length_insertionSort, List.length_map]
  · intro e he
    have hmem : e ∈ (SCENARIO_SLIDERS.filter (fun s => s.key ≠ .exitMultiple)).map
        (tornadoEntryOf sqf st b) := (List.perm_insertionSort _ _).mem_iff.mp he
    obtain ⟨sl, _, rfl⟩ := List.mem_map.mp hmem
    rfl

theorem pureBody_impliedPrice (sqf : ℚ → ℚ) (inp : Inputs) (b lf sh : ℚ)
    (hlf : ((projectList inp b inp.forecastYears).map (·.fcf))[inp.forecastYears - 1]? = some lf)
    (hsh : inp.sharesOutstanding = some sh) (hpos : 0 < sh) :
    impliedOf (pureBody sqf inp b) =
      some (((pvList inp.wacc (sqf inp.wacc) 0
          ((projectList inp b inp.forecastYears).map (·.fcf))).foldl (· + ·) 0
        + lf * (1 + inp.terminalGrowth) / (inp.wacc - inp.terminalGrowth)
            / (1 + inp.wacc) ^ inp.forecastYears
        - inp.netDebt - inp.preferredEquity.getD 0
        - inp.minorityInterest + inp.cashAndEquiv) / sh) := by
  simp [pureBody, impliedOf, hlf, hsh, hpos]

/-- C5 (amended): every sensitivity-grid cell is an independent
`sensitivityPrice` run of the base assumptions with only the two axis fields
overridden, and a cell is `null` exactly when that overridden assumption set
fails the pure facade's validation (no historical metrics, `wacc ≤ g`, or a
missing/zero base revenue), so a `null` cell cannot abort or alter any other
cell.  The cell value equals the implied share price of `calculateDCFPure`
only under the extra conditions the inline grid evaluator forces: `daPct`
null (the grid always uses the `capex * 0.8` proxy), a zero preferred-equity
adjustment (the grid bridge omits that term), positive shares outstanding
(otherwise the grid records the raw equity value where the facade reports
`null`), and a non-empty forecast. -/
theorem sensitivityGrid_matches_pure (sqf : ℚ → ℚ) (st : St)
    (rowKey colKey : SliderKey) (rowValues colValues : List ℚ)
    (i j : Nat) (hi : i < rowValues.length) (hj : j < colValues.length)
    (ov : Inputs → Inputs)
    (hov : ov = fun inp =>
      sliderSet colKey (colValues.getD j 0) (sliderSet rowKey (rowValues.getD i 0) inp)) :
    (((gridPrices sqf st rowKey colKey rowValues colValues).getD i []).getD j none
        = sensitivityPrice sqf st ov) ∧
      (sensitivityPrice sqf st ov = none ↔
        calculateDCFPure sqf (ov st.inputs) st.historical = .invalid) ∧
      (∀ r sh, (ov st.inputs).daPct = none →
        (ov st.inputs).preferredEquity.getD 0 = 0 →
        (ov st.inputs).sharesOutstanding = some sh → 0 < sh →
        1 ≤ (ov st.inputs).forecastYears →
        calculateDCFPure sqf (ov st.inputs) st.historical = .ok r →
        sensitivityPrice sqf st ov = r.impliedPrice) := by
  refine ⟨?_, ?_, ?_⟩
  · unfold gridPrices
    rw [getD_map_of_lt _ rowValues i hi [] 0,
      getD_map_of_lt _ colValues j hj none 0, hov]
  · unfold sensitivityPrice calculateDCFPure
    cases st.historical with
    | none => simp
    | some m =>
      by_cases hw : (ov st.inputs).wacc ≤ (ov st.inputs).terminalGrowth
      · simp [hw]
      · simp only [if_neg hw]
        cases truthyNum (lastValue m.revenue) with
        | none => simp
        | some bb =>
          simp only
          constructor
          · intro hcon
            exfalso
            revert hcon
            cases (ov st.inputs).sharesOutstanding with
            | none => simp
            | some sh => by_cases hle : sh ≤ 0 <;> simp [hle]
          · intro hcon
            exact absurd hcon (by simp [pureBody])
  · intro r sh hda hpe hsh hpos hn hok
    cases hhist : st.historical with
    | none =>
      rw [hhist] at hok
      exact absurd hok (by simp [calculateDCFPure])
    | some m =>
      rw [hhist] at hok
      by_cases hw : (ov st.inputs).wacc ≤ (ov st.inputs).terminalGrowth
      · rw [calculateDCFPure] at hok
        simp [hw] at hok
      · cases htr : truthyNum (lastValue m.revenue) with
        | none =>
          rw [calculateDCFPure] at hok
          simp [htr, hw] at hok
        | some bb =>
          rw [calculateDCFPure_eq_pureBody sqf (ov st.inputs) m bb htr
            (not_le.mp hw)] at hok
          have hlenf : ((projectList (ov st.inputs) bb
              (ov st.inputs).forecastYears).map (·.fcf)).length =
              (ov st.inputs).forecastYears := by
            rw [List.length_map, projectList_length]
          have hidx : (ov st.inputs).forecastYears - 1 <
              ((projectList (ov st.inputs) bb
                (ov st.inputs).forecastYears).map (·.fcf)).length := by omega
          have hlf : ((projectList (ov st.inputs) bb
              (ov st.inputs).forecastYears).map (·.fcf))[(ov st.inputs).forecastYears - 1]? =
              some (((projectList (ov st.inputs) bb
                (ov st.inputs).forecastYears).map (·.fcf)).get ⟨_, hidx⟩) :=
            List.getElem?_eq_getElem hidx
          have hip := pureBody_impliedPrice sqf (ov st.inputs) bb _ sh hlf hsh hpos
          rw [hok] at hip
          simp only [impliedOf] at hip
          rw [hip]
          unfold sensitivityPrice
          rw [hhist]
          simp only [if_neg hw, htr]
          rw [sensLoop_spec (ov st.inputs) hda (ov st.inputs).wacc
            (sqf (ov st.inputs).wacc) (ov st.inputs).forecastYears 0 0 bb 0]
          have hlast : (((projectList (ov st.inputs) bb
              (ov st.inputs).forecastYears).map (·.fcf)).getLast?).getD 0 =
              ((projectList (ov st.inputs) bb
                (ov st.inputs).forecastYears).map (·.fcf)).get ⟨_, hidx⟩ := by
            rw [getLast?_of_length _ _ hlenf, hlf]
            rfl
          rw [hsh]
          simp only [if_neg (not_le.mpr hpos)]
          rw [hlast]
          congr 1
          rw [hpe]
          ring

/-- C6 (amended): with every projected free cash flow positive (and terminal
growth above -100%), enterprise value is strictly antitone in `wacc` and
strictly monotone in `terminalGrowth`, under the validation gate
`terminalGrowth < wacc` on both sides of each change.  The positivity
hypothesis is necessary: with negative cash flows both monotonicities flip
(see the counterexample).  `sqf` is the square-root oracle for the mid-year
factor, pinned by the `^2` hypotheses at each WACC in play. -/
theorem enterpriseValue_monotone (sqf : ℚ → ℚ) (inp : Inputs) (m : Metrics)
    (b : ℚ) (hb : truthyNum (lastValue m.revenue) = some b)
    (hn : 1 ≤ inp.forecastYears)
    (hfcf : ∀ x ∈ (projectList inp b inp.forecastYears).map (·.fcf), 0 < x)
    (hgm1 : (-1 : ℚ) < inp.terminalGrowth)
    (w1 w2 g1 g2 : ℚ)
    (hw12 : w1 < w2) (hg1w : inp.terminalGrowth < w1)
    (hsq1p : 0 < sqf w1) (hsq1 : sqf w1 ^ 2 = 1 + w1)
    (hsq2p : 0 < sqf w2) (hsq2 : sqf w2 ^ 2 = 1 + w2)
    (hg12 : g1 < g2) (hg2w : g2 < inp.wacc)
    (hsqwp : 0 < sqf inp.wacc) (hsqw : sqf inp.wacc ^ 2 = 1 + inp.wacc) :
    ((evOf (calculateDCFPure sqf { inp with wacc := w1 } (some m))).isSome ∧
      (evOf (calculateDCFPure sqf { inp with wacc := w2 } (some m))).isSome ∧
      evOrZero (calculateDCFPure sqf { inp with wacc := w2 } (some m)) <
        evOrZero (calculateDCFPure sqf { inp with wacc := w1 } (some m))) ∧
    ((evOf (calculateDCFPure sqf { inp with terminalGrowth := g1 } (some m))).isSome ∧
      (evOf (calculateDCFPure sqf { inp with terminalGrowth := g2 } (some m))).isSome ∧
      evOrZero (calculateDCFPure sqf { inp with terminalGrowth := g1 } (some m)) <
        evOrZero (calculateDCFPure sqf { inp with terminalGrowth := g2 } (some m))) := by
  have hlenf : ((projectList inp b inp.forecastYears).map (·.fcf)).length =
      inp.forecastYears := by
    rw [List.length_map, projectList_length]
  have hidx : inp.forecastYears - 1 <
      ((projectList inp b inp.forecastYears).map (·.fcf)).length := by omega
  set fcfs := (projectList inp b inp.forecastYears).map (·.fcf) with hfcfs
  set lf := fcfs.get ⟨inp.forecastYears - 1, hidx⟩ with hlfdef
  have hlf : fcfs[inp.forecastYears - 1]? = some lf := List.getElem?_eq_getElem hidx
  have hlfpos : 0 < lf := hfcf lf (by rw [hlfdef]; exact List.get_mem fcfs _ _)
  have hne : fcfs ≠ [] := by
    intro hnil
    rw [hnil] at hlenf
    simp at hlenf
    omega
  -- the four evaluations in closed form
  have hrw1 : calculateDCFPure sqf { inp with wacc := w1 } (some m) =
      pureBody sqf { inp with wacc := w1 } b :=
    calculateDCFPure_eq_pureBody sqf _ m b hb hg1w
  have hrw2 : calculateDCFPure sqf { inp with wacc := w2 } (some m) =
      pureBody sqf { inp with wacc := w2 } b :=
    calculateDCFPure_eq_pureBody sqf _ m b hb (lt_trans hg1w hw12)
  have hrg1 : calculateDCFPure sqf { inp with terminalGrowth := g1 } (some m) =
      pureBody sqf { inp with terminalGrowth := g1 } b :=
    calculateDCFPure_eq_pureBody sqf _ m b hb (lt_trans hg12 hg2w)
  have hrg2 : calculateDCFPure sqf { inp with terminalGrowth := g2 } (some m) =
      pureBody sqf { inp with terminalGrowth := g2 } b :=
    calculateDCFPure_eq_pureBody sqf _ m b hb hg2w
  have hlist1 : ((projectList { inp with wacc := w1 } b
      ({ inp with wacc := w1 } : Inputs).forecastYears).map (·.fcf)) = fcfs := by
    rw [hfcfs]
    show (projectList { inp with wacc := w1 } b inp.forecastYears).map (·.fcf) = _
    rw [projectList_wacc_irrel]
  have hlist2 : ((projectList { inp with wacc := w2 } b
      ({ inp with wacc := w2 } : Inputs).forecastYears).map (·.fcf)) = fcfs := by
    rw [hfcfs]
    show (projectList { inp with wacc := w2 } b inp.forecastYears).map (·.fcf) = _
    rw [projectList_wacc_irrel]
  have hlistg1 : ((projectList { inp with terminalGrowth := g1 } b
      ({ inp with terminalGrowth := g1 } : Inputs).forecastYears).map (·.fcf)) = fcfs := by
    rw [hfcfs]
    show (projectList { inp with terminalGrowth := g1 } b inp.forecastYears).map (·.fcf) = _
    rw [projectList_growth_irrel]
  have hlistg2 : ((projectList { inp with terminalGrowth := g2 } b
      ({ inp with terminalGrowth := g2 } : Inputs).forecastYears).map (·.fcf)) = fcfs := by
    rw [hfcfs]
    show (projectList { inp with terminalGrowth := g2 } b inp.forecastYears).map (·.fcf) = _
    rw [projectList_growth_irrel]
  have hev1 := pureBody_ev sqf { inp with wacc := w1 } b lf (by rw [hlist1]; exact hlf)
  have hev2 := pureBody_ev sqf { inp with wacc := w2 } b lf (by rw [hlist2]; exact hlf)
  have hevg1 := pureBody_ev sqf { inp with terminalGrowth := g1 } b lf (by rw [hlistg1]; exact hlf)
  have hevg2 := pureBody_ev sqf { inp with terminalGrowth := g2 } b lf (by rw [hlistg2]; exact hlf)
  rw [hlist1] at hev1
  rw [hlist2] at hev2
  rw [hlistg1] at hevg1
  rw [hlistg2] at hevg2
  constructor
  · -- wacc direction
    have hS : (pvList w2 (sqf w2) 0 fcfs).foldl (· + ·) 0 <
        (pvList w1 (sqf w1) 0 fcfs).foldl (· + ·) 0 :=
      pvList_sum_lt hsq1p hsq1 hsq2p hsq2 hw12 fcfs hfcf hne 0
    have hT : lf * (1 + inp.terminalGrowth) / (w2 - inp.terminalGrowth)
          / (1 + w2) ^ inp.forecastYears <
        lf * (1 + inp.terminalGrowth) / (w1 - inp.terminalGrowth)
          / (1 + w1) ^ inp.forecastYears :=
      termPV_lt_wacc hlfpos hgm1 hg1w hw12 (sq_oracle_pos_base hsq1p hsq1) _
    have hz1 : evOrZero (calculateDCFPure sqf { inp with wacc := w1 } (some m)) =
        (pvList w1 (sqf w1) 0 fcfs).foldl (· + ·) 0 +
          lf * (1 + inp.terminalGrowth) / (w1 - inp.terminalGrowth)
            / (1 + w1) ^ inp.forecastYears := by
      rw [evOrZero, hrw1, hev1]
      rfl
    have hz2 : evOrZero (calculateDCFPure sqf { inp with wacc := w2 } (some m)) =
        (pvList w2 (sqf w2) 0 fcfs).foldl (· + ·) 0 +
          lf * (1 + inp.terminalGrowth) / (w2 - inp.terminalGrowth)
            / (1 + w2) ^ inp.forecastYears := by
      rw [evOrZero, hrw2, hev2]
      rfl
    refine ⟨?_, ?_, ?_⟩
    · rw [hrw1, hev1]; rfl
    · rw [hrw2, hev2]; rfl
    · rw [hz1, hz2]
      exact add_lt_add hS hT
  · -- terminal growth direction
    have hT : lf * (1 + g1) / (inp.wacc - g1) / (1 + inp.wacc) ^ inp.forecastYears <
        lf * (1 + g2) / (inp.wacc - g2) / (1 + inp.wacc) ^ inp.forecastYears :=
      termPV_lt_growth hlfpos hg12 hg2w (sq_oracle_pos_base hsqwp hsqw) _
    have hz1 : evOrZero (calculateDCFPure sqf { inp with terminalGrowth := g1 } (some m)) =
        (pvList inp.wacc (sqf inp.wacc) 0 fcfs).foldl (· + ·) 0 +
          lf * (1 + g1) / (inp.wacc - g1) / (1 + inp.wacc) ^ inp.forecastYears := by
      rw [evOrZero, hrg1, hevg1]
      rfl
    have hz2 : evOrZero (calculateDCFPure sqf { inp with terminalGrowth := g2 } (some m)) =
        (pvList inp.wacc (sqf inp.wacc) 0 fcfs).foldl (· + ·) 0 +
          lf * (1 + g2) / (inp.wacc - g2) / (1 + inp.wacc) ^ inp.forecastYears := by
      rw [evOrZero, hrg2, hevg2]
      rfl
    refine ⟨?_, ?_, ?_⟩
    · rw [hrg1, hevg1]; rfl
    · rw [hrg2, hevg2]; rfl
    · rw [hz1, hz2]
      exact add_lt_add_left hT _

/-! ## Concrete fixtures

`sqW` is a square-root oracle with exact rational values at the two WACCs
used below: `1.1^2 = 1.21 = 1 + 0.21` and `1.25^2 = 1.5625 = 1 + 0.5625`.
The demo company has one historical revenue of 1000 and a one-year forecast
at a 20% EBIT margin. -/

def sqW : ℚ → ℚ := fun w =>
  if w = 21/100 then 11/10 else if w = 9/16 then 5/4 else 1

def demoInputs : Inputs :=
  { forecastYears := 1, revenueGrowth := 0, ebitMargin := 1/5,
    taxRate := 1/4, capexPct := 1/20, daPct := none, nwcPct := 1/50,
    wacc := 21/100, terminalGrowth := 1/40, netDebt := 0,
    preferredEquity := none, minorityInterest := 0, cashAndEquiv := 0,
    sharesOutstanding := some 1, currentPrice := none }

def demoMetrics : Metrics := ⟨[some 1000]⟩

def demoHist : Historical := some demoMetrics

def demoSt : St := ⟨demoInputs, demoHist, none⟩

/-- Inputs whose every projected FCF is negative (negative EBIT margin):
the valuation is still "valid" per the engine's gates. -/
def negFcfInputs : Inputs := { demoInputs with ebitMargin := -1/5, daPct := some (1/25) }

/-- Inputs with an explicit `daPct` different from `0.8 * capexPct`. -/
def daInputs : Inputs := { demoInputs with daPct := some (6/100) }

def daSt : St := ⟨daInputs, demoHist, none⟩

/-- Negative growth and margin inputs, two forecast years. -/
def negGrowthInputs : Inputs :=
  { demoInputs with revenueGrowth := -1/10, ebitMargin := -1/5, forecastYears := 2 }

/-- Inputs with `forecastYears = 0` and everything else valid. -/
def zeroYearInputs : Inputs := { demoInputs with forecastYears := 0 }

section
attribute [local semireducible] Rat.add Rat.mul Rat.inv Rat.sub Rat.ofScientific

/-- C8: on the stream `[-100, 110]` the bisection IRR solver returns a rate
within `1e-5` of `0.10` (the bracket is `[-0.999, 10]`, tolerance `1e-7`,
at most 200 iterations, returning the midpoint), and on a stream with no
sign change over the bracket (`[100, 110]`) it returns `null`. -/
theorem solveIRR_roundtrip :
    (solveIRR [-100, 110]).isSome = true ∧
      mathAbs ((solveIRR [-100, 110]).getD 0 - 1/10) < 1/100000 ∧
      solveIRR [100, 110] = none := by
  refine ⟨by decide, by decide, by decide⟩

/-- C9: contrary to the spec, the engine has no `forecastYears` validation.
With `forecastYears = 0` and otherwise valid data, `calculateDCF` returns a
result tagged `valid` with an empty error list and an empty forecast, whose
enterprise value is the JS `NaN` (modelled `none`) that leaks out of
`forecastFCF[-1] = undefined`; `calculateDCFPure` likewise does not reject. -/
theorem forecastYears_zero_not_rejected :
    (calculateDCF sqW zeroYearInputs demoHist demoSt).1.valid = true ∧
      (calculateDCF sqW zeroYearInputs demoHist demoSt).1.errors = [] ∧
      ((calculateDCF sqW zeroYearInputs demoHist demoSt).1.summary).map
        (·.enterpriseValue) = some none ∧
      ((calculateDCF sqW zeroYearInputs demoHist demoSt).1.forecast).map
        (·.fcf) = some [] ∧
      calculateDCFPure sqW zeroYearInputs demoHist ≠ .invalid := by
  refine ⟨by decide, by decide, by decide, by decide, by decide⟩

end

section
attribute [local semireducible] Rat.add Rat.mul Rat.inv Rat.sub Rat.ofScientific

/-- C5 counterexample: with `daPct = 6%` (and `0.8 * capexPct = 4%`), the
sensitivity-grid cell at the base `(wacc, terminalGrowth)` pair records
`$768.33` (= 3439800/4477, from the inline `capex * 0.8` D&A proxy) while
`calculateDCFPure` produces an implied price of `$878.09` (= 3931200/4477,
from `revenue * daPct`): the recorded cell does not equal the pure facade's
implied share price. -/
theorem sensitivityGrid_matches_pure_cex :
    gridPrices sqW daSt .wacc .terminalGrowth [21/100] [1/40] =
      [[some (3439800/4477)]] ∧
      impliedOf (calculateDCFPure sqW
        (sliderSet .terminalGrowth (1/40) (sliderSet .wacc (21/100) daSt.inputs))
        daSt.historical) = some (3931200/4477) ∧
      ((3439800 : ℚ)/4477) ≠ 3931200/4477 := by
  refine ⟨by decide, by decide, by decide⟩

/-- C6 counterexample: when every projected FCF is negative (EBIT margin
-20%), raising WACC from 21% to 56.25% RAISES enterprise value (-878.1 to
-323.3) and raising terminal growth from 2.5% to 5% LOWERS it (-878.1 to
-1013.2), refuting both monotonicity directions of the claim even though
`wacc > terminalGrowth` holds before and after each change and the
square-root oracle is exact at both WACC values. -/
theorem enterpriseValue_monotone_cex :
    (evOf (calculateDCFPure sqW negFcfInputs demoHist)).isSome = true ∧
      (evOf (calculateDCFPure sqW { negFcfInputs with wacc := 9/16 } demoHist)).isSome = true ∧
      (evOf (calculateDCFPure sqW { negFcfInputs with terminalGrowth := 1/20 } demoHist)).isSome = true ∧
      negFcfInputs.terminalGrowth < negFcfInputs.wacc ∧
      negFcfInputs.wacc < 9/16 ∧
      negFcfInputs.terminalGrowth < (9 : ℚ)/16 ∧
      negFcfInputs.terminalGrowth < 1/20 ∧
      (1/20 : ℚ) < negFcfInputs.wacc ∧
      0 < sqW (21/100) ∧ sqW (21/100) ^ 2 = 1 + 21/100 ∧
      0 < sqW (9/16) ∧ sqW (9/16) ^ 2 = 1 + 9/16 ∧
      evOrZero (calculateDCFPure sqW negFcfInputs demoHist) <
        evOrZero (calculateDCFPure sqW { negFcfInputs with wacc := 9/16 } demoHist) ∧
      evOrZero (calculateDCFPure sqW { negFcfInputs with terminalGrowth := 1/20 } demoHist) <
        evOrZero (calculateDCFPure sqW negFcfInputs demoHist) := by
  refine ⟨by decide, by decide, by decide, by decide, by decide, by decide,
    by decide, by decide, by decide, by decide, by decide, by decide,
    by decide, by decide⟩

end

/-- Current inputs for the attribution witness: net debt moved off zero. -/
def curInputs : Inputs := { demoInputs with netDebt := 5 }

section
attribute [local semireducible] Rat.add Rat.mul Rat.inv Rat.sub Rat.ofScientific

/-- C7 witness: at the demo state the base price is the truthy
`$768.33 = 3439800/4477`, and the tornado is a sorted permutation of the six
engine-backed slider entries. -/
theorem computeTornado_complete_sorted_witness :
    (sensitivityPrice sqW demoSt id = some (3439800/4477)) ∧
      ((3439800 : ℚ)/4477 ≠ 0) ∧
      (List.Perm (computeTornado sqW demoSt)
        ((SCENARIO_SLIDERS.filter (fun s => s.key ≠ .exitMultiple)).map
          (tornadoEntryOf sqW demoSt (3439800/4477))) ∧
        List.Sorted (fun a b : TornadoEntry => b.spread ≤ a.spread)
          (computeTornado sqW demoSt) ∧
        (computeTornado sqW demoSt).length =
          (SCENARIO_SLIDERS.filter (fun s => s.key ≠ .exitMultiple)).length ∧
        ∀ e ∈ computeTornado sqW demoSt,
          e.spread = mathAbs e.hiDelta + mathAbs e.loDelta) :=
  ⟨by decide, by decide,
    computeTornado_complete_sorted sqW demoSt (3439800/4477) (by decide) (by decide)⟩

/-- C10 witness: the dollar-typed `netDebt` driver with base value 0 and
current value 5 is classified as changed. -/
theorem hasDriverChanged_zero_base_witness :
    ((⟨.netDebt, .dollar⟩ : AttrDriver).type ≠ .rate) ∧
      (attrGet AttrKey.netDebt demoInputs = some 0) ∧
      (attrGet AttrKey.netDebt curInputs = some 5) ∧
      (hasDriverChanged ⟨.netDebt, .dollar⟩ demoInputs curInputs = true ↔ (5 : ℚ) ≠ 0) :=
  ⟨by decide, by decide, by decide,
    hasDriverChanged_zero_base ⟨.netDebt, .dollar⟩ demoInputs curInputs
      (by decide) (by decide) 5 (by decide)⟩

end

section
attribute [local semireducible] Rat.add Rat.mul Rat.inv Rat.sub Rat.ofScientific

/-- C2 witness: the demo valuation (WACC 21%, whose mid-year factor is the
exact `sqrt(1.21) = 1.1`) satisfies the mid-year FCF / full-year terminal
discounting contract. -/
theorem midyear_fcf_fullyear_terminal_witness :
    (truthyNum (lastValue demoMetrics.revenue) = some 1000) ∧
      (demoInputs.terminalGrowth < demoInputs.wacc) ∧
      (0 < sqW demoInputs.wacc) ∧
      (sqW demoInputs.wacc ^ 2 = 1 + demoInputs.wacc) ∧
      (∃ f s, (calculateDCF sqW demoInputs (some demoMetrics) demoSt).1.forecast = some f ∧
        (calculateDCF sqW demoInputs (some demoMetrics) demoSt).1.summary = some s ∧
        f.pvFCF.length = f.fcf.length ∧
        (∀ i, i < f.fcf.length →
          f.pvFCF[i]? =
            some (f.fcf.getD i 0 / ((1 + demoInputs.wacc) ^ i * sqW demoInputs.wacc))) ∧
        (∀ lf, f.fcf.getLast? = some lf →
          s.terminalValue =
            some (lf * (1 + demoInputs.terminalGrowth)
              / (demoInputs.wacc - demoInputs.terminalGrowth)) ∧
          s.pvTerminal =
            some (lf * (1 + demoInputs.terminalGrowth)
              / (demoInputs.wacc - demoInputs.terminalGrowth)
              / (1 + demoInputs.wacc) ^ demoInputs.forecastYears))) :=
  ⟨by decide, by decide, by decide, by decide,
    midyear_fcf_fullyear_terminal sqW demoInputs demoMetrics demoSt 1000
      (by decide) (by decide) (by decide) (by decide)⟩

/-- C3 witness: a two-year forecast with negative revenue growth (-10%) and
negative EBIT margin (-20%) still satisfies every projection recurrence -
the negative inputs propagate unclamped. -/
theorem forecast_recurrences_witness :
    (truthyNum (lastValue demoMetrics.revenue) = some 1000) ∧
      (negGrowthInputs.terminalGrowth < negGrowthInputs.wacc) ∧
      (∃ f, (calculateDCF sqW negGrowthInputs (some demoMetrics) demoSt).1.forecast = some f ∧
        f.revenue.length = negGrowthInputs.forecastYears ∧
        ∀ i, i < negGrowthInputs.forecastYears →
          (f.revenue.getD i 0 =
            (if i = 0 then 1000 else f.revenue.getD (i - 1) 0)
              * (1 + negGrowthInputs.revenueGrowth)) ∧
          (f.ebit.getD i 0 = f.revenue.getD i 0 * negGrowthInputs.ebitMargin) ∧
          (f.nopat.getD i 0 = f.ebit.getD i 0 * (1 - negGrowthInputs.taxRate)) ∧
          (f.capex.getD i 0 = f.revenue.getD i 0 * negGrowthInputs.capexPct) ∧
          (f.da.getD i 0 = match negGrowthInputs.daPct with
            | some d => f.revenue.getD i 0 * d
            | none => f.capex.getD i 0 * 0.8) ∧
          (f.nwcDelta.getD i 0 =
            (f.revenue.getD i 0 - (if i = 0 then 1000 else f.revenue.getD (i - 1) 0))
              * negGrowthInputs.nwcPct) ∧
          (f.fcf.getD i 0 =
            f.nopat.getD i 0 + f.da.getD i 0 - f.capex.getD i 0 - f.nwcDelta.getD i 0)) :=
  ⟨by decide, by decide,
    forecast_recurrences sqW negGrowthInputs demoMetrics demoSt 1000
      (by decide) (by decide)⟩

end

section
attribute [local semireducible] Rat.add Rat.mul Rat.inv Rat.sub Rat.ofScientific

/-- C5 witness: for the 1x1 grid at the base `(wacc, terminalGrowth)` pair
on the demo state (null `daPct`, no preferred equity, one share, one
forecast year), the cell equals `sensitivityPrice`, nullness coincides with
pure-facade invalidity, and the cell equals the pure implied price. -/
theorem sensitivityGrid_matches_pure_witness :
    ((0 : Nat) < ([21/100] : List ℚ).length) ∧
      ((0 : Nat) < ([1/40] : List ℚ).length) ∧
      ((((gridPrices sqW demoSt .wacc .terminalGrowth [21/100] [1/40]).getD 0 []).getD 0 none
          = sensitivityPrice sqW demoSt (fun inp =>
              sliderSet .terminalGrowth (([1/40] : List ℚ).getD 0 0)
                (sliderSet .wacc (([21/100] : List ℚ).getD 0 0) inp))) ∧
        (sensitivityPrice sqW demoSt (fun inp =>
            sliderSet .terminalGrowth (([1/40] : List ℚ).getD 0 0)
              (sliderSet .wacc (([21/100] : List ℚ).getD 0 0) inp)) = none ↔
          calculateDCFPure sqW
            ((fun inp => sliderSet .terminalGrowth (([1/40] : List ℚ).getD 0 0)
              (sliderSet .wacc (([21/100] : List ℚ).getD 0 0) inp)) demoSt.inputs)
            demoSt.historical = .invalid) ∧
        (∀ r sh,
          ((fun inp => sliderSet .terminalGrowth (([1/40] : List ℚ).getD 0 0)
            (sliderSet .wacc (([21/100] : List ℚ).getD 0 0) inp)) demoSt.inputs).daPct = none →
          ((fun inp => sliderSet .terminalGrowth (([1/40] : List ℚ).getD 0 0)
            (sliderSet .wacc (([21/100] : List ℚ).getD 0 0) inp)) demoSt.inputs).preferredEquity.getD 0 = 0 →
          ((fun inp => sliderSet .terminalGrowth (([1/40] : List ℚ).getD 0 0)
            (sliderSet .wacc (([21/100] : List ℚ).getD 0 0) inp)) demoSt.inputs).sharesOutstanding = some sh →
          0 < sh →
          1 ≤ ((fun inp => sliderSet .terminalGrowth (([1/40] : List ℚ).getD 0 0)
            (sliderSet .wacc (([21/100] : List ℚ).getD 0 0) inp)) demoSt.inputs).forecastYears →
          calculateDCFPure sqW
            ((fun inp => sliderSet .terminalGrowth (([1/40] : List ℚ).getD 0 0)
              (sliderSet .wacc (([21/100] : List ℚ).getD 0 0) inp)) demoSt.inputs)
            demoSt.historical = .ok r →
          sensitivityPrice sqW demoSt (fun inp =>
            sliderSet .terminalGrowth (([1/40] : List ℚ).getD 0 0)
              (sliderSet .wacc (([21/100] : List ℚ).getD 0 0) inp)) = r.impliedPrice)) :=
  ⟨by decide, by decide,
    sensitivityGrid_matches_pure sqW demoSt .wacc .terminalGrowth
      [21/100] [1/40] 0 0 (by decide) (by decide) _ rfl⟩

/-- C6 witness: at the demo company (every projected FCF positive), raising
WACC from 21% to 56.25% strictly lowers enterprise value and raising
terminal growth from 2.5% to 5% strictly raises it. -/
theorem enterpriseValue_monotone_witness :
    (truthyNum (lastValue demoMetrics.revenue) = some 1000) ∧
      (1 ≤ demoInputs.forecastYears) ∧
      (∀ x ∈ (projectList demoInputs 1000 demoInputs.forecastYears).map (·.fcf), 0 < x) ∧
      ((-1 : ℚ) < demoInputs.terminalGrowth) ∧
      ((21 : ℚ)/100 < 9/16) ∧
      (demoInputs.terminalGrowth < 21/100) ∧
      (0 < sqW (21/100)) ∧ (sqW (21/100) ^ 2 = 1 + 21/100) ∧
      (0 < sqW (9/16)) ∧ (sqW (9/16) ^ 2 = 1 + 9/16) ∧
      ((1 : ℚ)/40 < 1/20) ∧ ((1 : ℚ)/20 < demoInputs.wacc) ∧
      (0 < sqW demoInputs.wacc) ∧ (sqW demoInputs.wacc ^ 2 = 1 + demoInputs.wacc) ∧
      (((evOf (calculateDCFPure sqW { demoInputs with wacc := 21/100 } (some demoMetrics))).isSome ∧
        (evOf (calculateDCFPure sqW { demoInputs with wacc := 9/16 } (some demoMetrics))).isSome ∧
        evOrZero (calculateDCFPure sqW { demoInputs with wacc := 9/16 } (some demoMetrics)) <
          evOrZero (calculateDCFPure sqW { demoInputs with wacc := 21/100 } (some demoMetrics))) ∧
      ((evOf (calculateDCFPure sqW { demoInputs with terminalGrowth := 1/40 } (some demoMetrics))).isSome ∧
        (evOf (calculateDCFPure sqW { demoInputs with terminalGrowth := 1/20 } (some demoMetrics))).isSome ∧
        evOrZero (calculateDCFPure sqW { demoInputs with terminalGrowth := 1/40 } (some demoMetrics)) <
          evOrZero (calculateDCFPure sqW { demoInputs with terminalGrowth := 1/20 } (some demoMetrics)))) :=
  ⟨by decide, by decide, by decide, by decide, by decide, by decide,
    by decide, by decide, by decide, by decide, by decide, by decide,
    by decide, by decide,
    enterpriseValue_monotone sqW demoInputs demoMetrics 1000 (by decide)
      (by decide) (by decide) (by decide) (21/100) (9/16) (1/40) (1/20)
      (by decide) (by decide) (by decide) (by decide) (by decide) (by decide)
      (by decide) (by decide) (by decide) (by decide)⟩

end

end DCF
